import Mathlib

set_option maxRecDepth 100000

/-!
Shallow embedding of the binary record-schema and codec layer of laspy
(src/laspy/util.py: Spec, Format, Point) and of the header semantic layer
(src/laspy/header.py: leap_year, Header accessors and setters).

Machine values are represented by their little-endian byte patterns: a
numeric struct code carries a natural number below 2 ^ (8 * size) (for the
float codes this is the raw IEEE bit pattern, since the codec only moves
bytes), and the char code carries a byte string.  Fallible Python code is
modelled with Except; the error strings name the Python exception raised.
-/

namespace Laspy

/-- The ctypes element kinds appearing as keys of util.py's LEfmt table. -/
inductive CType
  | c_long | c_ushort | c_ubyte | c_float | c_char | c_double | c_ulonglong
deriving DecidableEq

/-- One struct format character: the second character of the two-character
codes stored in util.py's LEfmt table (the leading bracket of each code is
the little-endian marker consumed by Struct). -/
inductive FmtChar
  | L | H | B | f | s | d | Q
deriving DecidableEq

/-- LEfmt: maps a ctypes kind to its struct format character. -/
def LEfmt : CType → FmtChar
  | .c_long => .L
  | .c_ushort => .H
  | .c_ubyte => .B
  | .c_float => .f
  | .c_char => .s
  | .c_double => .d
  | .c_ulonglong => .Q

/-- fmtLen: byte size of each struct format character, as in util.py. -/
def fmtLen : FmtChar → Nat
  | .L => 4
  | .H => 2
  | .B => 1
  | .f => 4
  | .s => 1
  | .d => 8
  | .Q => 8

/-- Python values appearing as field defaults (util.py's defaults table). -/
inductive PyVal
  | int (n : Int)
  | float0
  | str (s : String)
  | list (vs : List PyVal)

/-- defaults: the default value per struct format character.  Note the
source really maps the one-byte unsigned code to the string "0". -/
def defaults : FmtChar → PyVal
  | .L => .int 0
  | .H => .int 0
  | .B => .str "0"
  | .f => .float0
  | .s => .str " "
  | .d => .float0
  | .Q => .int 0

/-- Whether a Python default value is a string (type(...) == str). -/
def PyVal.isStr : PyVal → Bool
  | .str _ => true
  | _ => false

/-- Python multiplication x * num as used on defaults: string and list
repetition (a non-positive count yields the empty string or list), numeric
multiplication otherwise. -/
def pyMul : PyVal → Int → PyVal
  | .str str, n => .str (String.join (List.replicate n.toNat str))
  | .int m, n => .int (m * n)
  | .float0, _ => .float0
  | .list l, n => .list (List.flatten (List.replicate n.toNat l))

/-- The default computed in Spec.init: defaults[fmt] * num when num == 1 or
the default is a string, else a list of num copies. -/
def specDefault (fmt : FmtChar) (num : Int) : PyVal :=
  let d := defaults fmt
  if num == 1 || d.isStr then pyMul d num
  else .list (List.replicate num.toNat d)

/-- One field of a record schema (class Spec of util.py).  The Format field
is the ctypes kind, fmt is LEfmt of it, and length is fmtLen of fmt, exactly
as the constructor stores them. -/
structure Spec where
  name : String
  offs : Int
  Format : CType
  fmt : FmtChar
  length : Nat
  num : Int
  pack : Bool
  default : PyVal
  overwritable : Bool
  idx : Nat

/-- Spec.init.  The only failure in the source constructor is the branch
for a non-little-endian request; in particular there is no check at all on
the element count num. -/
def mkSpec (name : String) (offs : Int) (fmt : CType) (num : Int)
    (pack : Bool) (ltl_endian : Bool) (overwritable : Bool) (idx : Nat) :
    Except String Spec :=
  if ltl_endian then
    Except.ok
      ⟨name, offs, fmt, LEfmt fmt, fmtLen (LEfmt fmt), num, pack,
        specDefault (LEfmt fmt) num, overwritable, idx⟩
  else
    Except.error "Big endian files are not currently supported."

/-- A record schema (class Format of util.py).  pt_fmt_long models the
composite struct format string: Format.add appends exactly one format
character per field, independent of the field's element count, mirroring
the source.  The XML helpers of the source are interrogation-only and are
not modelled. -/
structure Format where
  fmt : String
  specs : List Spec
  rec_len : Int
  pt_fmt_long : List FmtChar

/-- Format.add: byte offset of a new field is the previous field's offset
plus the previous field's byte length num * fmtLen; the record length grows
by the new field's byte length; one struct format character is appended. -/
def Format.add (fo : Format) (name : String) (fmt : CType) (num : Int)
    (pack : Bool) (overwritable : Bool) : Except String Format := do
  let offs : Int :=
    match fo.specs.getLast? with
    | none => 0
    | some last => last.offs + last.num * (last.length : Int)
  let s ← mkSpec name offs fmt num pack true overwritable fo.specs.length
  return ⟨fo.fmt, fo.specs ++ [s], fo.rec_len + num * (fmtLen (LEfmt fmt) : Int),
    fo.pt_fmt_long ++ [LEfmt fmt]⟩

/-- The closed set of recognized format identifiers. -/
def allIds : List String :=
  ["0", "1", "2", "3", "4", "5", "VLR", "h1.0", "h1.1", "h1.2", "h1.3"]

/-- The recognized point-format identifiers. -/
def pointIds : List String := ["0", "1", "2", "3", "4", "5"]

/-- The header-format test of the source, fmt[0] == "h": the identifier's
first character is h.  (On the empty string the source would raise; that
case is unreachable because the identifier was already checked against the
closed set.) -/
def firstIsH (s : String) : Bool :=
  match s.data with
  | c :: _ => c == 'h'
  | [] => false

/-- Format.init: conditional composition of the per-format field lists,
in the exact order of the source. -/
def buildFormat (fmtIn : String) (overwritable : Bool) : Except String Format := do
  let fmt := fmtIn
  if !(allIds.contains fmt) then
    throw ("Invalid format: " ++ fmt)
  let mut fo : Format := ⟨fmt, [], 0, []⟩
  -- Point Fields
  if pointIds.contains fmt then
    fo ← fo.add "X" CType.c_long 1 false true
    fo ← fo.add "Y" CType.c_long 1 false true
    fo ← fo.add "Z" CType.c_long 1 false true
    fo ← fo.add "intensity" CType.c_ushort 1 false true
    fo ← fo.add "flag_byte" CType.c_ubyte 1 false true
    fo ← fo.add "raw_classification" CType.c_ubyte 1 false true
    fo ← fo.add "scan_angle_rank" CType.c_ubyte 1 false true
    fo ← fo.add "user_data" CType.c_ubyte 1 false true
    fo ← fo.add "pt_src_id" CType.c_ushort 1 false true
  if ["1", "3", "4", "5"].contains fmt then
    fo ← fo.add "gps_time" CType.c_double 1 false true
  if ["3", "5"].contains fmt then
    fo ← fo.add "red" CType.c_ushort 1 false true
    fo ← fo.add "green" CType.c_ushort 1 false true
    fo ← fo.add "blue" CType.c_ushort 1 false true
  else if fmt == "2" then
    fo ← fo.add "red" CType.c_ushort 1 false true
    fo ← fo.add "green" CType.c_ushort 1 false true
    fo ← fo.add "blue" CType.c_ushort 1 false true
  if fmt == "4" then
    fo ← fo.add "wave_packet_descp_idx" CType.c_ubyte 1 false true
    fo ← fo.add "byte_offset_to_wavefm_data" CType.c_ulonglong 1 false true
    fo ← fo.add "wavefm_pkt_size" CType.c_long 1 false true
    fo ← fo.add "return_pt_wavefm_loc" CType.c_float 1 false true
    fo ← fo.add "x_t" CType.c_float 1 false true
    fo ← fo.add "y_t" CType.c_float 1 false true
    fo ← fo.add "z_t" CType.c_float 1 false true
  else if fmt == "5" then
    fo ← fo.add "wave_packet_descp_idx" CType.c_ubyte 1 false true
    fo ← fo.add "byte_offset_to_wavefm_data" CType.c_ulonglong 1 false true
    fo ← fo.add "wavefm_pkt_size" CType.c_long 1 false true
    fo ← fo.add "return_pt_wavefm_loc" CType.c_float 1 false true
    fo ← fo.add "x_t" CType.c_float 1 false true
    fo ← fo.add "y_t" CType.c_float 1 false true
    fo ← fo.add "z_t" CType.c_float 1 false true
  -- VLR Fields
  if fmt == "VLR" then
    fo ← fo.add "reserved" CType.c_ushort 1 false true
    fo ← fo.add "user_id" CType.c_char 16 false true
    fo ← fo.add "record_id" CType.c_ushort 1 false true
    fo ← fo.add "rec_len_after_header" CType.c_ushort 1 false true
    fo ← fo.add "description" CType.c_char 32 true true
  -- Header Fields
  if firstIsH fmt then
    fo ← fo.add "file_sig" CType.c_char 4 true overwritable
    fo ← fo.add "file_src" CType.c_ushort 1 false true
    fo ← fo.add "global_encoding" CType.c_ushort 1 false true
    fo ← fo.add "proj_id_1" CType.c_long 1 false true
    fo ← fo.add "proj_id_2" CType.c_ushort 1 false true
    fo ← fo.add "proj_id_3" CType.c_ushort 1 false true
    fo ← fo.add "proj_id_4" CType.c_ubyte 8 false true
    fo ← fo.add "version_major" CType.c_ubyte 1 false overwritable
    fo ← fo.add "version_minor" CType.c_ubyte 1 false overwritable
    fo ← fo.add "sys_id" CType.c_char 32 true true
    fo ← fo.add "gen_soft" CType.c_char 32 true true
    fo ← fo.add "created_day" CType.c_ushort 1 false true
    fo ← fo.add "created_year" CType.c_ushort 1 false true
    fo ← fo.add "header_size" CType.c_ushort 1 false overwritable
    fo ← fo.add "offset_to_point_data" CType.c_long 1 false true
    fo ← fo.add "num_variable_len_recs" CType.c_long 1 false true
    fo ← fo.add "pt_dat_format_id" CType.c_ubyte 1 false overwritable
    fo ← fo.add "pt_dat_rec_len" CType.c_ushort 1 false true
    fo ← fo.add "num_pt_recs" CType.c_long 1 false true
    if fmt == "h1.3" then
      fo ← fo.add "num_pts_by_return" CType.c_long 7 false true
      fo ← fo.add "x_scale" CType.c_double 1 false true
      fo ← fo.add "y_scale" CType.c_double 1 false true
      fo ← fo.add "z_scale" CType.c_double 1 false true
      fo ← fo.add "x_offset" CType.c_double 1 false true
      fo ← fo.add "y_offset" CType.c_double 1 false true
      fo ← fo.add "z_offset" CType.c_double 1 false true
      fo ← fo.add "x_max" CType.c_double 1 false true
      fo ← fo.add "x_min" CType.c_double 1 false true
      fo ← fo.add "y_max" CType.c_double 1 false true
      fo ← fo.add "y_min" CType.c_double 1 false true
      fo ← fo.add "z_max" CType.c_double 1 false true
      fo ← fo.add "z_min" CType.c_double 1 false true
    else if ["h1.0", "h1.1", "h1.2"].contains fmt then
      fo ← fo.add "num_pts_by_return" CType.c_long 5 false true
      fo ← fo.add "x_scale" CType.c_double 1 false true
      fo ← fo.add "y_scale" CType.c_double 1 false true
      fo ← fo.add "z_scale" CType.c_double 1 false true
      fo ← fo.add "x_offset" CType.c_double 1 false true
      fo ← fo.add "y_offset" CType.c_double 1 false true
      fo ← fo.add "z_offset" CType.c_double 1 false true
      fo ← fo.add "x_max" CType.c_double 1 false true
      fo ← fo.add "x_min" CType.c_double 1 false true
      fo ← fo.add "y_max" CType.c_double 1 false true
      fo ← fo.add "y_min" CType.c_double 1 false true
      fo ← fo.add "z_max" CType.c_double 1 false true
      fo ← fo.add "z_min" CType.c_double 1 false true
  return fo

/-! ### The composite struct codec

Struct(pt_fmt_long) packs one value per format character and unpacks a
buffer whose length must equal the format's calcsize exactly.  Bytes are
naturals below 256; multibyte numeric codes are serialized little-endian. -/

/-- A raw value travelling through the composite packer: a numeric code
carries the bit pattern of the machine value, the char code carries a byte
string. -/
inductive SVal
  | num (v : Nat)
  | bytes (bs : List Nat)
deriving DecidableEq

/-- Little-endian serialization of v into n bytes. -/
def toLE : Nat → Nat → List Nat
  | 0, _ => []
  | n + 1, v => v % 256 :: toLE n (v / 256)

/-- Little-endian deserialization of a byte string. -/
def fromLE : List Nat → Nat
  | [] => 0
  | b :: bs => b + 256 * fromLE bs

/-- Packing one value under one format character.  The char code s (count
one) truncates the byte string to its first byte, padding an empty string
with a zero byte, as struct does; a numeric code requires its value to fit
the declared width and serializes it little-endian; a value of the wrong
shape is a struct error. -/
def packOne : FmtChar → SVal → Option (List Nat)
  | .s, .bytes bs => some [bs.headD 0]
  | .s, .num _ => none
  | _, .bytes _ => none
  | c, .num v => if v < 2 ^ (8 * fmtLen c) then some (toLE (fmtLen c) v) else none

/-- Struct.pack of a whole value sequence: one value per format character,
chunks concatenated; a length mismatch or a per-value failure is a struct
error. -/
def structPack : List FmtChar → List SVal → Option (List Nat)
  | [], [] => some []
  | c :: cs, v :: vs =>
      match packOne c v, structPack cs vs with
      | some chunk, some rest => some (chunk ++ rest)
      | _, _ => none
  | _, _ => none

/-- Struct.calcsize: total byte size of a composite format. -/
def calcsize (cs : List FmtChar) : Nat := (cs.map fmtLen).sum

/-- Reading one value from the front of a buffer. -/
def readOne (c : FmtChar) (bs : List Nat) : SVal :=
  match c with
  | .s => .bytes (bs.take 1)
  | c => .num (fromLE (bs.take (fmtLen c)))

/-- Sequentially reading every value of a composite format. -/
def structUnpackAux : List FmtChar → List Nat → List SVal
  | [], _ => []
  | c :: cs, bs => readOne c bs :: structUnpackAux cs (bs.drop (fmtLen c))

/-- Struct.unpack: requires the buffer length to equal calcsize exactly
(struct rejects both shorter and longer buffers), then reads the values. -/
def structUnpack (cs : List FmtChar) (bs : List Nat) : Option (List SVal) :=
  if bs.length = calcsize cs then some (structUnpackAux cs bs) else none

/-- A decoded or to-be-encoded record (class Point of util.py): the flat
ordered value sequence. -/
structure Point where
  unpacked : List SVal
deriving DecidableEq

/-- Point.init: given a byte string, unpack it with the schema's packer (a
failure of struct.unpack propagates); otherwise use the supplied value
list; failing that, raise.  The reader argument of the source is modelled
by passing its point_format directly. -/
def Point.make (fo : Format) (bytestr : Option (List Nat))
    (unpacked_list : Option (List SVal)) : Except String Point :=
  match bytestr with
  | some bs =>
      match structUnpack fo.pt_fmt_long bs with
      | some vals => Except.ok ⟨vals⟩
      | none => Except.error "struct.error"
  | none =>
      match unpacked_list with
      | some vals => Except.ok ⟨vals⟩
      | none => Except.error "No byte string or attribute list supplied for point."

/-- Point.pack: delegate to the schema's composite packer. -/
def Point.pack (fo : Format) (p : Point) : Option (List Nat) :=
  structPack fo.pt_fmt_long p.unpacked

/-! ### Well-formedness of value sequences

A raw value sequence matches a schema when it has one value per field, each
of the field's declared type and width: a numeric field carries a bit
pattern below 2 ^ (8 * element size), a char field carries a byte string of
exactly num bytes. -/

/-- One value of the declared type and width of one field. -/
def specWF (sp : Spec) (v : SVal) : Bool :=
  match sp.fmt, v with
  | .s, .bytes bs => bs.length == sp.num.toNat && bs.all (fun b => decide (b < 256))
  | .s, .num _ => false
  | _, .bytes _ => false
  | c, .num val => decide (val < 2 ^ (8 * fmtLen c))

/-- A value sequence matching a field list, one value per field. -/
def wfvals : List Spec → List SVal → Bool
  | [], [] => true
  | sp :: sps, v :: vs => specWF sp v && wfvals sps vs
  | _, _ => false

/-- One value of the right shape for one format character (the char code
carries exactly one byte, as its packed chunk does). -/
def charWF : FmtChar → SVal → Bool
  | .s, .bytes bs => bs.length == 1 && bs.all (fun b => decide (b < 256))
  | .s, .num _ => false
  | _, .bytes _ => false
  | c, .num val => decide (val < 2 ^ (8 * fmtLen c))

/-- A value sequence matching a format character list pointwise. -/
def charWFs : List FmtChar → List SVal → Bool
  | [], [] => true
  | c :: cs, v :: vs => charWF c v && charWFs cs vs
  | _, _ => false

/-! ### The header semantic layer (header.py)

A decoded header record is modelled as the tuple of raw field values the
source assigns onto the Header object (one attribute per dimension of the
external header format); accessors are pure functions of it.  Multibyte
floating-point fields carry their 64-bit patterns, since the accessors in
scope never do arithmetic on them. -/

/-- leap_year of header.py, verbatim: divisible by 400 gives True, else
divisible by 100 gives True, else divisible by 4 gives False, else False. -/
def leap_year (year : Nat) : Bool :=
  if year % 400 = 0 then true
  else if year % 100 = 0 then true
  else if year % 4 = 0 then false
  else false

/-- The proleptic-Gregorian leap rule used by Python's datetime arithmetic
(not the source's leap_year above). -/
def isLeapGreg (y : Nat) : Bool :=
  (y % 4 == 0 && !(y % 100 == 0)) || y % 400 == 0

/-- Days in a Gregorian calendar year. -/
def daysInYear (y : Nat) : Nat := if isLeapGreg y then 366 else 365

/-- Days in month m of year y (Gregorian). -/
def monthLen (y m : Nat) : Nat :=
  if m = 2 then (if isLeapGreg y then 29 else 28)
  else if m = 4 ∨ m = 6 ∨ m = 9 ∨ m = 11 then 30
  else 31

/-- Converts a day-of-year (1-based) into (month, day) by walking the
months; the fuel bounds the walk at twelve months and is always
sufficient for a day-of-year within the year. -/
def monthDayAux : Nat → Nat → Nat → Nat → Nat × Nat
  | 0, _, m, doy => (m, doy)
  | fuel + 1, y, m, doy =>
      if doy ≤ monthLen y m then (m, doy)
      else monthDayAux fuel y (m + 1) (doy - monthLen y m)

/-- Advances d days from January 1 of year y, walking whole years; returns
(year, day-of-year).  Each step consumes at least 365 days, so fuel d + 1
is always sufficient. -/
def addYearsAux : Nat → Nat → Nat → Nat × Nat
  | 0, y, d => (y, d + 1)
  | fuel + 1, y, d =>
      if d < daysInYear y then (y, d + 1)
      else addYearsAux fuel (y + 1) (d - daysInYear y)

/-- datetime(y, 1, 1) + timedelta(d) as a calendar date (year, month, day),
ignoring datetime's year-range limits (those are handled by get_date). -/
def jan1Plus (y d : Nat) : Nat × Nat × Nat :=
  let yd := addYearsAux (d + 1) y d
  let md := monthDayAux 11 yd.1 1 yd.2
  (yd.1, md.1, md.2)

/-- Header.get_date: None when both stored fields are zero; otherwise
datetime(year, 1, 1) + timedelta(day), or timedelta(day - 1) when the
source's leap_year holds.  datetime(year, 1, 1) raises ValueError for a
year outside 1..9999, and the addition raises OverflowError when the
result leaves that range; in the leap branch with day == 0 the delta is
minus one day, i.e. December 31 of the previous year. -/
def get_date (year day : Nat) : Except String (Option (Nat × Nat × Nat)) :=
  if year = 0 ∧ day = 0 then Except.ok none
  else if year < 1 ∨ 9999 < year then Except.error "ValueError"
  else if leap_year year then
    if day = 0 then
      if year = 1 then Except.error "OverflowError"
      else Except.ok (some (year - 1, 12, 31))
    else
      let r := jan1Plus year (day - 1)
      if 9999 < r.1 then Except.error "OverflowError" else Except.ok (some r)
  else
    let r := jan1Plus year day
    if 9999 < r.1 then Except.error "OverflowError" else Except.ok (some r)

/-- The raw field values a decoded header record carries, named as the
source references them (self.FileSig, self.CreatedDay, ...).  The source
reads the point-format id under two spellings (PtDatFormatId in
get_dataformatid, PtDatFormatID in get_datarecordlength); the external
header format supplies a single point-format dimension, modelled here as
one field. -/
structure Header where
  FileSig : String
  FileSrc : Nat
  GlobalEncoding : Nat
  ProjID1 : Nat
  ProjID2 : Nat
  ProjID3 : Nat
  ProjID4 : List Nat
  VersionMajor : Nat
  VersionMinor : Nat
  SysId : String
  GenSoft : String
  CreatedDay : Nat
  CreatedYear : Nat
  HeaderSize : Nat
  OffsetToPointData : Nat
  NumVariableLenRecs : Nat
  PtDatFormatID : Nat
  PtDatRecLen : Nat
  NumPtRecs : Nat
  NumPtsByReturn : List Nat
  XScale : Nat
  YScale : Nat
  ZScale : Nat
  XOffset : Nat
  YOffset : Nat
  ZOffset : Nat
  XMax : Nat
  XMin : Nat
  YMax : Nat
  YMin : Nat
  ZMax : Nat
  ZMin : Nat

/-- Header.get_date bound to the header's stored fields. -/
def Header.date (h : Header) : Except String (Option (Nat × Nat × Nat)) :=
  get_date h.CreatedYear h.CreatedDay

/-- The fixed point-record-length table of Header.get_datarecordlength. -/
def lenDict : List (Nat × Nat) := [(0, 20), (1, 28), (2, 26), (3, 34), (4, 57), (5, 63)]

/-- Header.get_datarecordlength: dictionary lookup keyed by the stored
point-format id; a key outside the table raises (KeyError, the error the
spec names UnknownPointFormat). -/
def Header.get_datarecordlength (h : Header) : Except String Nat :=
  match lenDict.lookup h.PtDatFormatID with
  | some v => Except.ok v
  | none => Except.error "KeyError"

/-- Python str.split on the dot separator, over the string's character
list. -/
def splitDotAux : List Char → List Char → List String
  | [], acc => [String.mk acc.reverse]
  | c :: cs, acc =>
      if c == '.' then String.mk acc.reverse :: splitDotAux cs []
      else splitDotAux cs (c :: acc)

/-- value.split of the source's set_version, with the dot separator. -/
def splitDot (s : String) : List String := splitDotAux s.data []

/-- Python int(...)'s success test on a string, as used by set_version:
an optional sign followed by at least one digit. -/
def isIntString (s : String) : Bool :=
  let t :=
    match s.data with
    | c :: rest => if c == '-' || c == '+' then rest else s.data
    | [] => []
  !t.isEmpty && t.all Char.isDigit

/-! ### Header write accessors

Each setter's body in the source is just return, except set_version, which
first splits its argument on the dot into exactly two parts and converts
both with int (raising ValueError otherwise) before assigning through the
no-op major_version/minor_version property setters, and set_date, whose
body computes a timedelta from a datetime argument and discards it. -/

/-- Header.set_version: major, minor = value.split of the dot (raising
ValueError unless exactly two parts come back), int conversion of both
parts (raising ValueError on a non-numeric part), then assignment through
the no-op major_version/minor_version property setters. -/
def Header.set_version (h : Header) (value : String) : Except String Header :=
  match splitDot value with
  | [major, minor] =>
      if isIntString major && isIntString minor then Except.ok h
      else Except.error "ValueError"
  | _ => Except.error "ValueError"

/-- Header.set_scale: body is return. -/
def Header.set_scale {α : Type} (h : Header) (_value : α) : Except String Header :=
  Except.ok h

/-- Header.set_offset: body is return. -/
def Header.set_offset {α : Type} (h : Header) (_value : α) : Except String Header :=
  Except.ok h

/-- Header.set_min: body is return. -/
def Header.set_min {α : Type} (h : Header) (_value : α) : Except String Header :=
  Except.ok h

/-- Header.set_max: body is return. -/
def Header.set_max {α : Type} (h : Header) (_value : α) : Except String Header :=
  Except.ok h

/-- Header.set_date: for a datetime argument (year, month, day) the body
computes value minus datetime(value.year, 1, 1) and the leap predicate,
discards both, and returns without mutating. -/
def Header.set_date (h : Header) (_value : Nat × Nat × Nat) : Except String Header :=
  Except.ok h

/-- Header.set_systemid: body is return. -/
def Header.set_systemid {α : Type} (h : Header) (_value : α) : Except String Header :=
  Except.ok h

/-- Header.set_softwareid: body is return. -/
def Header.set_softwareid {α : Type} (h : Header) (_value : α) : Except String Header :=
  Except.ok h

/-- Header.set_filesourceid: body is return. -/
def Header.set_filesourceid {α : Type} (h : Header) (_value : α) : Except String Header :=
  Except.ok h

/-- Header.set_global_encoding: body is return. -/
def Header.set_global_encoding {α : Type} (h : Header) (_value : α) : Except String Header :=
  Except.ok h

/-- Header.set_vlrs: body is return. -/
def Header.set_vlrs {α : Type} (h : Header) (_value : α) : Except String Header :=
  Except.ok h

/-- Header.set_srs: body is return. -/
def Header.set_srs {α : Type} (h : Header) (_value : α) : Except String Header :=
  Except.ok h

/-- Header.set_schema: body is return. -/
def Header.set_schema {α : Type} (h : Header) (_value : α) : Except String Header :=
  Except.ok h

/-! ### Sub-byte bit fields -/

/-- Modelled from the spec: the byte-to-bit-string helpers the source's
make_nice delegates to (reader.binary_str and reader.packed_str) are
defined in the external reader, not in this repository's two source files;
the spec fixes the convention as LSB-first extraction,
value = (byte >> low_bit) mask (1 << width) - 1. -/
def subField (b lowBit width : Nat) : Nat :=
  (b >>> lowBit) &&& ((1 <<< width) - 1)

/-- Modelled from the spec: reassembly of the flag byte from its four
sub-fields by shifting each back to its low bit and OR-ing: return number
at bits 0-2, number of returns at bits 3-5, scan direction flag at bit 6,
edge of flight line at bit 7. -/
def assembleFlags (rn nr sd ef : Nat) : Nat :=
  rn ||| (nr <<< 3) ||| (sd <<< 6) ||| (ef <<< 7)

/-- Modelled from the spec: reassembly of the raw classification byte:
classification at bits 0-4, synthetic at bit 5, key point at bit 6,
withheld at bit 7. -/
def assembleClassification (cls syn key wh : Nat) : Nat :=
  cls ||| (syn <<< 5) ||| (key <<< 6) ||| (wh <<< 7)

/-! ### Evaluation helpers and concrete instances used by the theorems -/

/-- Whether an Except is a success. -/
def isOkB {ε α : Type} : Except ε α → Bool
  | .ok _ => true
  | .error _ => false

/-- A Boolean predicate evaluated under a successfully built schema (false
when construction failed). -/
def isOkAnd (e : Except String Format) (p : Format → Bool) : Bool :=
  match e with
  | .ok fo => p fo
  | .error _ => false

/-- Extraction of a successfully built schema (the default is never
reached for the identifiers used below). -/
def getOk (e : Except String Format) (dflt : Format) : Format :=
  match e with
  | .ok fo => fo
  | .error _ => dflt

/-- The empty schema, placeholder default for getOk. -/
def emptyFormat : Format := ⟨"", [], 0, []⟩

/-- The six point-format schemas and the VLR schema, as built. -/
def fmt0 : Format := getOk (buildFormat "0" false) emptyFormat

def fmt1 : Format := getOk (buildFormat "1" false) emptyFormat

def fmt2 : Format := getOk (buildFormat "2" false) emptyFormat

def fmt3 : Format := getOk (buildFormat "3" false) emptyFormat

def fmt4 : Format := getOk (buildFormat "4" false) emptyFormat

def fmt5 : Format := getOk (buildFormat "5" false) emptyFormat

def vlrFormat : Format := getOk (buildFormat "VLR" false) emptyFormat

/-- Sum of the byte lengths of a field list, in construction order. -/
def sumByteLen (sps : List Spec) : Int :=
  (sps.map (fun sp => sp.num * (sp.length : Int))).sum

/-- Offset bookkeeping of a field list: the first field sits at offset 0
and every later field sits at the previous offset plus the previous byte
length, so offsets are strictly increasing and gap-free. -/
def offsetsChain : Spec → List Spec → Bool
  | _, [] => true
  | prev, sp :: rest =>
      (sp.offs == prev.offs + prev.num * (prev.length : Int)) &&
      (prev.offs < sp.offs) && offsetsChain sp rest

/-- Offset invariant of a whole field list. -/
def offsetsOk : List Spec → Bool
  | [] => true
  | sp :: rest => sp.offs == 0 && offsetsChain sp rest

/-- A well-formed raw value sequence for the VLR schema: one value per
field, each of the declared type and width (the user_id and description
char fields carry 16 and 32 bytes). -/
def vlrPoint : Point :=
  ⟨[SVal.num 0, SVal.bytes (List.replicate 16 0), SVal.num 0, SVal.num 0,
    SVal.bytes (List.replicate 32 32)]⟩

/-- What the VLR packer actually produces from vlrPoint: two bytes per
two-byte field and a single byte per char field. -/
def vlrPackedBytes : List Nat := [0, 0, 0, 0, 0, 0, 0, 32]

/-- What unpacking vlrPackedBytes yields: one-byte strings for the two
char fields. -/
def vlrReadBack : Point :=
  ⟨[SVal.num 0, SVal.bytes [0], SVal.num 0, SVal.num 0, SVal.bytes [32]]⟩

/-- What unpacking eight zero bytes under the VLR schema yields. -/
def vlrZeroReadBack : Point :=
  ⟨[SVal.num 0, SVal.bytes [0], SVal.num 0, SVal.num 0, SVal.bytes [0]]⟩

/-- A header record populated with concrete raw values (year 2008, day 79,
point format 3). -/
def testHeader : Header :=
  ⟨"LASF", 0, 0, 0, 0, 0, [0, 0, 0, 0, 0, 0, 0, 0], 1, 2, "", "", 79, 2008,
    227, 227, 0, 3, 34, 0, [0, 0, 0, 0, 0], 0, 0, 0, 0, 0, 0, 0, 0, 0, 0, 0, 0⟩

/-- The same header record with creation year 0 and day 79. -/
def year0Header : Header :=
  ⟨"LASF", 0, 0, 0, 0, 0, [0, 0, 0, 0, 0, 0, 0, 0], 1, 2, "", "", 79, 0,
    227, 227, 0, 3, 34, 0, [0, 0, 0, 0, 0], 0, 0, 0, 0, 0, 0, 0, 0, 0, 0, 0, 0⟩

/-! ### Little-endian serialization lemmas -/

theorem take_len_append (l₁ l₂ : List Nat) : (l₁ ++ l₂).take l₁.length = l₁ := by
  induction l₁ with
  | nil => rfl
  | cons a l ih => simp [ih]

theorem drop_len_append (l₁ l₂ : List Nat) : (l₁ ++ l₂).drop l₁.length = l₂ := by
  induction l₁ with
  | nil => rfl
  | cons a l ih =>
      simp only [List.cons_append, List.length_cons, List.drop_succ_cons]
      exact ih

theorem toLE_length (n v : Nat) : (toLE n v).length = n := by
  induction n generalizing v with
  | zero => rfl
  | succ n ih => simp [toLE, ih]

theorem toLE_lt (n v : Nat) : ∀ b ∈ toLE n v, b < 256 := by
  induction n generalizing v with
  | zero => intro b hb; simp [toLE] at hb
  | succ n ih =>
      intro b hb
      simp only [toLE, List.mem_cons] at hb
      rcases hb with hb | hb
      · rw [hb]; exact Nat.mod_lt _ (by norm_num)
      · exact ih _ _ hb

theorem fromLE_toLE (n v : Nat) (h : v < 256 ^ n) : fromLE (toLE n v) = v := by
  induction n generalizing v with
  | zero =>
      have : v = 0 := by simpa using h
      simp [this, toLE, fromLE]
  | succ n ih =>
      simp only [toLE, fromLE]
      rw [ih (v / 256) ((Nat.div_lt_iff_lt_mul (by norm_num)).mpr (by rw [← pow_succ]; exact h))]
      exact Nat.mod_add_div v 256

theorem fromLE_lt (bs : List Nat) (h : ∀ b ∈ bs, b < 256) :
    fromLE bs < 256 ^ bs.length := by
  induction bs with
  | nil => simp [fromLE]
  | cons b bs ih =>
      simp only [fromLE, List.length_cons, pow_succ]
      have h1 : b < 256 := h b (by simp)
      have h2 : fromLE bs < 256 ^ bs.length := ih (fun x hx => h x (by simp [hx]))
      calc b + 256 * fromLE bs < 256 * (fromLE bs + 1) := by omega
        _ ≤ 256 * 256 ^ bs.length := by
            exact Nat.mul_le_mul_left _ (Nat.succ_le_of_lt h2)
        _ = 256 ^ bs.length * 256 := Nat.mul_comm _ _

theorem toLE_fromLE (bs : List Nat) (h : ∀ b ∈ bs, b < 256) :
    toLE bs.length (fromLE bs) = bs := by
  induction bs with
  | nil => rfl
  | cons b bs ih =>
      simp only [fromLE, List.length_cons, toLE]
      have h1 : b < 256 := h b (by simp)
      have hmod : (b + 256 * fromLE bs) % 256 = b := by
        rw [Nat.add_mul_mod_self_left, Nat.mod_eq_of_lt h1]
      have hdiv : (b + 256 * fromLE bs) / 256 = fromLE bs := by
        rw [Nat.add_mul_div_left _ _ (by norm_num : 0 < 256), Nat.div_eq_of_lt h1]
        omega
      rw [hmod, hdiv, ih (fun x hx => h x (by simp [hx]))]

theorem take_toLE_append (k val : Nat) (rest : List Nat) :
    (toLE k val ++ rest).take k = toLE k val := by
  have h := take_len_append (toLE k val) rest
  rwa [toLE_length] at h

/-! ### Per-format-character codec lemmas -/

theorem readOne_num_toLE (c : FmtChar) (hc : c ≠ FmtChar.s) (val : Nat)
    (hv : val < 256 ^ fmtLen c) (rest : List Nat) :
    readOne c (toLE (fmtLen c) val ++ rest) = SVal.num val := by
  cases c
  case s => exact absurd rfl hc
  all_goals
    simp only [readOne]
    rw [take_toLE_append, fromLE_toLE _ _ hv]

theorem packOne_sound (c : FmtChar) (v : SVal) (h : charWF c v = true) :
    ∃ chunk, packOne c v = some chunk ∧ chunk.length = fmtLen c ∧
      ∀ rest : List Nat, readOne c (chunk ++ rest) = v := by
  cases c <;> cases v <;> simp only [charWF, decide_eq_true_eq] at h
  case s.bytes bs =>
    rw [Bool.and_eq_true, beq_iff_eq] at h
    obtain ⟨hlen, _⟩ := h
    obtain ⟨b, rfl⟩ : ∃ b, bs = [b] := by
      cases bs with
      | nil => simp at hlen
      | cons b t =>
          cases t with
          | nil => exact ⟨b, rfl⟩
          | cons x xs => simp at hlen
    exact ⟨[b], rfl, rfl, fun rest => rfl⟩
  all_goals
    first
    | exact absurd h Bool.false_ne_true
    | (rename_i val
       refine ⟨toLE _ val, by simp only [packOne]; rw [if_pos h], toLE_length _ _,
         fun rest => ?_⟩
       refine readOne_num_toLE _ (by decide) val ?_ rest
       calc val < 2 ^ (8 * fmtLen _) := h
         _ = 256 ^ fmtLen _ := by rw [pow_mul]; norm_num)

theorem packOne_readOne (c : FmtChar) (chunk rest : List Nat)
    (hl : chunk.length = fmtLen c) (hb : ∀ b ∈ chunk, b < 256) :
    packOne c (readOne c (chunk ++ rest)) = some chunk := by
  have htake : (chunk ++ rest).take (fmtLen c) = chunk := by
    rw [← hl]; exact take_len_append _ _
  have hlt : fromLE chunk < 2 ^ (8 * fmtLen c) := by
    rw [pow_mul]
    norm_num
    calc fromLE chunk < 256 ^ chunk.length := fromLE_lt chunk hb
      _ = 256 ^ fmtLen c := by rw [hl]
  cases c
  case s =>
    have htake1 : List.take 1 (chunk ++ rest) = chunk := htake
    simp only [readOne]
    rw [htake1]
    obtain ⟨b, rfl⟩ : ∃ b, chunk = [b] := by
      cases chunk with
      | nil => simp [fmtLen] at hl
      | cons b t =>
          cases t with
          | nil => exact ⟨b, rfl⟩
          | cons x xs => simp [fmtLen] at hl
    rfl
  all_goals
    simp only [readOne]
    rw [htake]
    simp only [packOne, if_pos hlt]
    rw [← hl, toLE_fromLE chunk hb]

/-! ### Whole-record codec lemmas -/

theorem structPack_roundtrip (cs : List FmtChar) (vs : List SVal)
    (h : charWFs cs vs = true) :
    ∃ bs, structPack cs vs = some bs ∧ bs.length = calcsize cs ∧
      structUnpackAux cs bs = vs := by
  induction cs generalizing vs with
  | nil =>
      cases vs with
      | nil => exact ⟨[], rfl, rfl, rfl⟩
      | cons v vs => simp [charWFs] at h
  | cons c cs ih =>
      cases vs with
      | nil => simp [charWFs] at h
      | cons v vs =>
          simp only [charWFs, Bool.and_eq_true] at h
          obtain ⟨h1, h2⟩ := h
          obtain ⟨rest, hp, hlen, hu⟩ := ih vs h2
          obtain ⟨chunk, hp1, hl1, hr1⟩ := packOne_sound c v h1
          refine ⟨chunk ++ rest, ?_, ?_, ?_⟩
          · simp [structPack, hp1, hp]
          · simp [List.length_append, hl1, hlen, calcsize]
          · simp only [structUnpackAux]
            rw [hr1 rest]
            have hdrop : (chunk ++ rest).drop (fmtLen c) = rest := by
              rw [← hl1]; exact drop_len_append _ _
            rw [hdrop, hu]

theorem structUnpackAux_pack (cs : List FmtChar) (bs : List Nat)
    (hlen : bs.length = calcsize cs) (hb : ∀ b ∈ bs, b < 256) :
    structPack cs (structUnpackAux cs bs) = some bs := by
  induction cs generalizing bs with
  | nil =>
      have hnil : bs = [] := List.length_eq_zero.mp (by simpa [calcsize] using hlen)
      subst hnil
      rfl
  | cons c cs ih =>
      have hcl : bs.length = fmtLen c + calcsize cs := by simpa [calcsize] using hlen
      have hchunklen : (bs.take (fmtLen c)).length = fmtLen c := by
        rw [List.length_take]; omega
      have hrestlen : (bs.drop (fmtLen c)).length = calcsize cs := by
        rw [List.length_drop]; omega
      have hbs : bs.take (fmtLen c) ++ bs.drop (fmtLen c) = bs := List.take_append_drop _ _
      have hbchunk : ∀ b ∈ bs.take (fmtLen c), b < 256 :=
        fun b hbm => hb b (List.take_subset _ _ hbm)
      have hbrest : ∀ b ∈ bs.drop (fmtLen c), b < 256 :=
        fun b hbm => hb b (List.drop_subset _ _ hbm)
      have h1 : packOne c (readOne c bs) = some (bs.take (fmtLen c)) := by
        have hpr := packOne_readOne c (bs.take (fmtLen c)) (bs.drop (fmtLen c)) hchunklen hbchunk
        rwa [hbs] at hpr
      simp only [structUnpackAux, structPack, h1, ih (bs.drop (fmtLen c)) hrestlen hbrest]
      rw [hbs]

/-! ### Schema-level bridging lemmas -/

theorem wfvals_charWFs (sps : List Spec) (vs : List SVal)
    (hnum : ∀ sp ∈ sps, sp.num = 1) (h : wfvals sps vs = true) :
    charWFs (sps.map (fun sp => sp.fmt)) vs = true := by
  induction sps generalizing vs with
  | nil =>
      cases vs with
      | nil => rfl
      | cons v vs => simp [wfvals] at h
  | cons sp sps ih =>
      cases vs with
      | nil => simp [wfvals] at h
      | cons v vs =>
          simp only [wfvals, Bool.and_eq_true] at h
          obtain ⟨h1, h2⟩ := h
          have hsp : sp.num = 1 := hnum sp (by simp)
          simp only [List.map_cons, charWFs, Bool.and_eq_true]
          refine ⟨?_, ih vs (fun s hs => hnum s (by simp [hs])) h2⟩
          revert h1
          cases hf : sp.fmt <;> cases v <;> simp [specWF, charWF, hf, hsp]

theorem point_roundtrip_general (fo : Format)
    (hmap : fo.pt_fmt_long = fo.specs.map (fun sp => sp.fmt))
    (hnum : ∀ sp ∈ fo.specs, sp.num = 1) (p : Point)
    (hwf : wfvals fo.specs p.unpacked = true) :
    ∃ bs, Point.pack fo p = some bs ∧ Point.make fo (some bs) none = Except.ok p := by
  have hcw : charWFs fo.pt_fmt_long p.unpacked = true := by
    rw [hmap]; exact wfvals_charWFs _ _ hnum hwf
  obtain ⟨bs, hp, hlen, hu⟩ := structPack_roundtrip _ _ hcw
  refine ⟨bs, hp, ?_⟩
  simp only [Point.make, structUnpack, if_pos hlen, hu]

theorem truncated_general (fo : Format)
    (hcs : (calcsize fo.pt_fmt_long : Int) = fo.rec_len)
    (bs : List Nat) (hlen : (bs.length : Int) < fo.rec_len) :
    Point.make fo (some bs) none = Except.error "struct.error" := by
  have hne : ¬ (bs.length = calcsize fo.pt_fmt_long) := by
    intro he
    rw [← hcs] at hlen
    have hlt : bs.length < calcsize fo.pt_fmt_long := by exact_mod_cast hlen
    omega
  simp only [Point.make, structUnpack, if_neg hne]

theorem decode_encode_general (fo : Format)
    (hcs : (calcsize fo.pt_fmt_long : Int) = fo.rec_len)
    (bs : List Nat) (hlen : (bs.length : Int) = fo.rec_len)
    (hb : ∀ b ∈ bs, b < 256) :
    ∃ p : Point, Point.make fo (some bs) none = Except.ok p ∧ Point.pack fo p = some bs := by
  have hl : bs.length = calcsize fo.pt_fmt_long := by
    rw [← hcs] at hlen; exact_mod_cast hlen
  refine ⟨⟨structUnpackAux fo.pt_fmt_long bs⟩, ?_, ?_⟩
  · simp [Point.make, structUnpack, if_pos hl]
  · exact structUnpackAux_pack _ _ hl hb

/-- Behaviour of Header.get_date inside datetime's supported year range:
the no-leap branch adds day days to January 1, the leap branch adds
day - 1 days, and the leap branch with day 0 lands on December 31 of the
previous year. -/
theorem get_date_eval (y d : Nat) (h1 : 1 ≤ y) (h2 : y ≤ 9999)
    (h3 : (jan1Plus y (if leap_year y then d - 1 else d)).1 ≤ 9999) :
    (leap_year y = false → get_date y d = Except.ok (some (jan1Plus y d))) ∧
    (leap_year y = true → 1 ≤ d → get_date y d = Except.ok (some (jan1Plus y (d - 1)))) ∧
    (leap_year y = true → d = 0 → get_date y d = Except.ok (some (y - 1, 12, 31))) := by
  refine ⟨?_, ?_, ?_⟩
  · intro hl
    have h3' : (jan1Plus y d).1 ≤ 9999 := by rw [hl] at h3; simpa using h3
    unfold get_date
    rw [if_neg (by omega : ¬(y = 0 ∧ d = 0)), if_neg (by omega : ¬(y < 1 ∨ 9999 < y)), hl,
      if_neg Bool.false_ne_true, if_neg (by omega : ¬ 9999 < (jan1Plus y d).1)]
  · intro hl hd
    have h3' : (jan1Plus y (d - 1)).1 ≤ 9999 := by rw [hl] at h3; simpa using h3
    unfold get_date
    rw [if_neg (by omega : ¬(y = 0 ∧ d = 0)), if_neg (by omega : ¬(y < 1 ∨ 9999 < y)), hl,
      if_pos rfl, if_neg (by omega : ¬ d = 0),
      if_neg (by omega : ¬ 9999 < (jan1Plus y (d - 1)).1)]
  · intro hl hd0
    have hy1 : y ≠ 1 := by
      intro he
      rw [he] at hl
      exact absurd hl (by decide)
    unfold get_date
    rw [if_neg (by omega : ¬(y = 0 ∧ d = 0)), if_neg (by omega : ¬(y < 1 ∨ 9999 < y)), hl,
      if_pos rfl, if_pos hd0, if_neg hy1]

/-! ### The claims -/

/-- C1: for every recognized point-format id in 0..5, constructing the
record schema succeeds and its computed record length -- which is the sum
of the byte lengths of its fields in construction order -- equals the
canonical table value: 20, 28, 26, 34, 57 and 63 for formats 0 to 5. -/
theorem point_record_lengths_match_table :
    isOkAnd (buildFormat "0" false)
      (fun fo => fo.rec_len == 20 && sumByteLen fo.specs == 20) = true ∧
    isOkAnd (buildFormat "1" false)
      (fun fo => fo.rec_len == 28 && sumByteLen fo.specs == 28) = true ∧
    isOkAnd (buildFormat "2" false)
      (fun fo => fo.rec_len == 26 && sumByteLen fo.specs == 26) = true ∧
    isOkAnd (buildFormat "3" false)
      (fun fo => fo.rec_len == 34 && sumByteLen fo.specs == 34) = true ∧
    isOkAnd (buildFormat "4" false)
      (fun fo => fo.rec_len == 57 && sumByteLen fo.specs == 57) = true ∧
    isOkAnd (buildFormat "5" false)
      (fun fo => fo.rec_len == 63 && sumByteLen fo.specs == 63) = true := by
  decide

/-- C2 (amended): for every point-format schema (ids 0 to 5, the schemas
whose fields all have element count one) and every raw value sequence
matching it, packing and then unpacking returns the original sequence
bit-exactly.  Stated over every constructed schema the claim fails,
because the composite packer covers only one element of a multi-element
field: see the VLR counterexample. -/
theorem point_value_roundtrip (fid : String) (hf : fid ∈ pointIds) (fo : Format)
    (hF : buildFormat fid false = Except.ok fo) (p : Point)
    (hwf : wfvals fo.specs p.unpacked = true) :
    ∃ bs, Point.pack fo p = some bs ∧ Point.make fo (some bs) none = Except.ok p := by
  have hc : fid = "0" ∨ fid = "1" ∨ fid = "2" ∨ fid = "3" ∨ fid = "4" ∨ fid = "5" := by
    simpa [pointIds] using hf
  rcases hc with rfl | rfl | rfl | rfl | rfl | rfl
  · have he : fmt0 = fo :=
      Except.ok.inj ((rfl : buildFormat "0" false = Except.ok fmt0).symm.trans hF)
    subst he
    exact point_roundtrip_general fmt0 (by decide) (by decide) p hwf
  · have he : fmt1 = fo :=
      Except.ok.inj ((rfl : buildFormat "1" false = Except.ok fmt1).symm.trans hF)
    subst he
    exact point_roundtrip_general fmt1 (by decide) (by decide) p hwf
  · have he : fmt2 = fo :=
      Except.ok.inj ((rfl : buildFormat "2" false = Except.ok fmt2).symm.trans hF)
    subst he
    exact point_roundtrip_general fmt2 (by decide) (by decide) p hwf
  · have he : fmt3 = fo :=
      Except.ok.inj ((rfl : buildFormat "3" false = Except.ok fmt3).symm.trans hF)
    subst he
    exact point_roundtrip_general fmt3 (by decide) (by decide) p hwf
  · have he : fmt4 = fo :=
      Except.ok.inj ((rfl : buildFormat "4" false = Except.ok fmt4).symm.trans hF)
    subst he
    exact point_roundtrip_general fmt4 (by decide) (by decide) p hwf
  · have he : fmt5 = fo :=
      Except.ok.inj ((rfl : buildFormat "5" false = Except.ok fmt5).symm.trans hF)
    subst he
    exact point_roundtrip_general fmt5 (by decide) (by decide) p hwf

/-- C2 witness: the value-level round trip at point format 0 on the
all-zero record. -/
theorem point_value_roundtrip_witness :
    ∃ bs, Point.pack fmt0 ⟨List.replicate 9 (SVal.num 0)⟩ = some bs ∧
      Point.make fmt0 (some bs) none = Except.ok ⟨List.replicate 9 (SVal.num 0)⟩ :=
  point_value_roundtrip "0" (by decide) fmt0 rfl ⟨List.replicate 9 (SVal.num 0)⟩ (by decide)

/-- C2 counterexample: under the VLR schema a well-formed value sequence
(16-byte user_id, 32-byte description) packs into one byte per char
field, so unpacking the packed block returns a different sequence. -/
theorem vlr_value_roundtrip_fails :
    wfvals vlrFormat.specs vlrPoint.unpacked = true ∧
    Point.pack vlrFormat vlrPoint = some vlrPackedBytes ∧
    Point.make vlrFormat (some vlrPackedBytes) none = Except.ok vlrReadBack ∧
    vlrReadBack ≠ vlrPoint :=
  ⟨rfl, rfl, rfl, by decide⟩

/-- C3: for every byte value, extracting return_number (bits 0-2),
number_of_returns (bits 3-5), scan_direction_flag (bit 6) and
edge_of_flight_line (bit 7) with the LSB-first shift-and-mask rule and
reassembling them by shift and OR yields the byte again; likewise for the
classification byte with classification (bits 0-4), synthetic (bit 5),
key_point (bit 6) and withheld (bit 7). -/
theorem flag_classification_bits_roundtrip :
    ∀ b : Nat, b < 256 →
      assembleFlags (subField b 0 3) (subField b 3 3) (subField b 6 1)
        (subField b 7 1) = b ∧
      assembleClassification (subField b 0 5) (subField b 5 1) (subField b 6 1)
        (subField b 7 1) = b := by
  decide

/-- C3 witness: the bit round trip at the concrete byte 170. -/
theorem flag_classification_bits_roundtrip_witness :
    assembleFlags (subField 170 0 3) (subField 170 3 3) (subField 170 6 1)
      (subField 170 7 1) = 170 ∧
    assembleClassification (subField 170 0 5) (subField 170 5 1) (subField 170 6 1)
      (subField 170 7 1) = 170 :=
  flag_classification_bits_roundtrip 170 (by decide)

/-- C4: in every constructed schema (all eleven identifiers) the first
field has byte offset 0 and every later field's offset equals the previous
field's offset plus the previous field's byte length, so offsets are
strictly increasing and gap-free. -/
theorem schema_offsets_gapfree (fid : String) (hf : fid ∈ allIds) :
    isOkAnd (buildFormat fid false) (fun fo => offsetsOk fo.specs) = true := by
  have hc : fid = "0" ∨ fid = "1" ∨ fid = "2" ∨ fid = "3" ∨ fid = "4" ∨ fid = "5" ∨
      fid = "VLR" ∨ fid = "h1.0" ∨ fid = "h1.1" ∨ fid = "h1.2" ∨ fid = "h1.3" := by
    simpa [allIds] using hf
  rcases hc with rfl | rfl | rfl | rfl | rfl | rfl | rfl | rfl | rfl | rfl | rfl <;> decide

/-- C4 witness: the offset invariant of the h1.2 header schema. -/
theorem schema_offsets_gapfree_witness :
    isOkAnd (buildFormat "h1.2" false) (fun fo => offsetsOk fo.specs) = true :=
  schema_offsets_gapfree "h1.2" (by decide)

/-- C5 (amended): when both created_year and created_day are zero,
created_date returns no date; otherwise, for a created_year inside
datetime's supported range 1..9999 whose computed date also stays inside
it, the accessor returns January 1 of created_year plus created_day days
when created_year is not leap under the source's literal predicate, and
January 1 plus created_day - 1 days when it is (day 0 in a leap year lands
on December 31 of the previous year); in particular (2008, 79) maps to
2008-03-20.  For created_year outside that range -- year 0 with a nonzero
day included -- it raises instead of returning a date: see the
counterexample. -/
theorem created_date_behaviour (h : Header) (h1 : 1 ≤ h.CreatedYear)
    (h2 : h.CreatedYear ≤ 9999)
    (h3 : (jan1Plus h.CreatedYear
      (if leap_year h.CreatedYear then h.CreatedDay - 1 else h.CreatedDay)).1 ≤ 9999) :
    (leap_year h.CreatedYear = false →
      Header.date h = Except.ok (some (jan1Plus h.CreatedYear h.CreatedDay))) ∧
    (leap_year h.CreatedYear = true → 1 ≤ h.CreatedDay →
      Header.date h = Except.ok (some (jan1Plus h.CreatedYear (h.CreatedDay - 1)))) ∧
    (leap_year h.CreatedYear = true → h.CreatedDay = 0 →
      Header.date h = Except.ok (some (h.CreatedYear - 1, 12, 31))) ∧
    get_date 0 0 = Except.ok none ∧
    get_date 2008 79 = Except.ok (some (2008, 3, 20)) ∧
    jan1Plus 2008 79 = (2008, 3, 20) := by
  obtain ⟨ha, hb, hc⟩ := get_date_eval h.CreatedYear h.CreatedDay h1 h2 h3
  exact ⟨ha, hb, hc, rfl, rfl, rfl⟩

/-- C5 witness: the date accessor at the concrete header with
created_year 2008 and created_day 79. -/
theorem created_date_behaviour_witness :
    (leap_year 2008 = false → Header.date testHeader = Except.ok (some (jan1Plus 2008 79))) ∧
    (leap_year 2008 = true → 1 ≤ 79 →
      Header.date testHeader = Except.ok (some (jan1Plus 2008 78))) ∧
    (leap_year 2008 = true → 79 = 0 →
      Header.date testHeader = Except.ok (some (2007, 12, 31))) ∧
    get_date 0 0 = Except.ok none ∧
    get_date 2008 79 = Except.ok (some (2008, 3, 20)) ∧
    jan1Plus 2008 79 = (2008, 3, 20) :=
  created_date_behaviour testHeader (by decide) (by decide) (by decide)

/-- C5 counterexample: a header record with created_year 0 and
created_day 79 makes the accessor raise ValueError (datetime rejects
year 0) instead of returning a date. -/
theorem created_date_year_zero_raises :
    Header.date year0Header = Except.error "ValueError" := rfl

/-- C6: for every header record whose stored point-format id is in 0..5,
the data_record_length accessor returns the fixed table value (20, 28, 26,
34, 57, 63); for any id outside the table it fails with the lookup error
the spec names UnknownPointFormat. -/
theorem data_record_length_table (h : Header) :
    Header.get_datarecordlength h =
      (match h.PtDatFormatID with
       | 0 => Except.ok 20
       | 1 => Except.ok 28
       | 2 => Except.ok 26
       | 3 => Except.ok 34
       | 4 => Except.ok 57
       | 5 => Except.ok 63
       | _ => Except.error "KeyError") := by
  unfold Header.get_datarecordlength
  generalize h.PtDatFormatID = n
  rcases n with _ | _ | _ | _ | _ | _ | n <;> rfl

/-- C6 witness: the accessor at the concrete header with point format 3. -/
theorem data_record_length_table_witness :
    Header.get_datarecordlength testHeader = Except.ok 34 :=
  data_record_length_table testHeader

/-- C7 (amended): every listed header write accessor performs no mutation
and returns the header unchanged; all of them accept any argument without
error except set_version, which raises ValueError on an argument that does
not parse as a dotted major.minor pair of integers -- and still mutates
nothing when it succeeds, since the two version property setters are
no-ops. -/
theorem header_setters_never_mutate (h : Header) :
    (∀ (s : String) (h2 : Header), Header.set_version h s = Except.ok h2 → h2 = h) ∧
    (∀ s : String, Header.set_version h s = Except.ok h ∨
      Header.set_version h s = Except.error "ValueError") ∧
    (∀ (α : Type) (v : α), Header.set_scale h v = Except.ok h) ∧
    (∀ (α : Type) (v : α), Header.set_offset h v = Except.ok h) ∧
    (∀ (α : Type) (v : α), Header.set_min h v = Except.ok h) ∧
    (∀ (α : Type) (v : α), Header.set_max h v = Except.ok h) ∧
    (∀ v : Nat × Nat × Nat, Header.set_date h v = Except.ok h) ∧
    (∀ (α : Type) (v : α), Header.set_systemid h v = Except.ok h) ∧
    (∀ (α : Type) (v : α), Header.set_softwareid h v = Except.ok h) ∧
    (∀ (α : Type) (v : α), Header.set_filesourceid h v = Except.ok h) ∧
    (∀ (α : Type) (v : α), Header.set_global_encoding h v = Except.ok h) ∧
    (∀ (α : Type) (v : α), Header.set_vlrs h v = Except.ok h) ∧
    (∀ (α : Type) (v : α), Header.set_srs h v = Except.ok h) ∧
    (∀ (α : Type) (v : α), Header.set_schema h v = Except.ok h) := by
  refine ⟨?_, ?_, fun α v => rfl, fun α v => rfl, fun α v => rfl, fun α v => rfl,
    fun v => rfl, fun α v => rfl, fun α v => rfl, fun α v => rfl, fun α v => rfl,
    fun α v => rfl, fun α v => rfl, fun α v => rfl⟩
  · intro s h2 hok
    unfold Header.set_version at hok
    split at hok
    · split at hok
      · exact (Except.ok.inj hok).symm
      · exact Except.noConfusion hok
    · exact Except.noConfusion hok
  · intro s
    unfold Header.set_version
    split
    · split
      · exact Or.inl rfl
      · exact Or.inr rfl
    · exact Or.inr rfl

/-- C7 witness: the version setter on a parseable argument leaves the
concrete header unchanged or raises, and here it does not raise. -/
theorem header_setters_never_mutate_witness :
    Header.set_version testHeader "1.2" = Except.ok testHeader ∨
    Header.set_version testHeader "1.2" = Except.error "ValueError" :=
  (header_setters_never_mutate testHeader).2.1 "1.2"

/-- C7 counterexample: the version setter applied to an argument without a
dot raises ValueError (the tuple unpacking of value.split fails), so not
every listed setter accepts every argument without error. -/
theorem set_version_raises_without_dot :
    Header.set_version testHeader "1" = Except.error "ValueError" := rfl

/-- C8 (amended): for every point-format schema (ids 0 to 5), unpacking a
byte block strictly shorter than the record length fails with the struct
error the spec names TruncatedRecord, and no value sequence is returned.
Stated over every constructed schema the claim fails, because for the VLR
and header schemas the packer covers fewer bytes than the record length:
see the VLR counterexample. -/
theorem unpack_truncated_point_record_fails (fid : String) (hf : fid ∈ pointIds)
    (fo : Format) (hF : buildFormat fid false = Except.ok fo)
    (bs : List Nat) (hlen : (bs.length : Int) < fo.rec_len) :
    Point.make fo (some bs) none = Except.error "struct.error" := by
  have hc : fid = "0" ∨ fid = "1" ∨ fid = "2" ∨ fid = "3" ∨ fid = "4" ∨ fid = "5" := by
    simpa [pointIds] using hf
  rcases hc with rfl | rfl | rfl | rfl | rfl | rfl
  · have he : fmt0 = fo :=
      Except.ok.inj ((rfl : buildFormat "0" false = Except.ok fmt0).symm.trans hF)
    subst he
    exact truncated_general fmt0 (by decide) bs hlen
  · have he : fmt1 = fo :=
      Except.ok.inj ((rfl : buildFormat "1" false = Except.ok fmt1).symm.trans hF)
    subst he
    exact truncated_general fmt1 (by decide) bs hlen
  · have he : fmt2 = fo :=
      Except.ok.inj ((rfl : buildFormat "2" false = Except.ok fmt2).symm.trans hF)
    subst he
    exact truncated_general fmt2 (by decide) bs hlen
  · have he : fmt3 = fo :=
      Except.ok.inj ((rfl : buildFormat "3" false = Except.ok fmt3).symm.trans hF)
    subst he
    exact truncated_general fmt3 (by decide) bs hlen
  · have he : fmt4 = fo :=
      Except.ok.inj ((rfl : buildFormat "4" false = Except.ok fmt4).symm.trans hF)
    subst he
    exact truncated_general fmt4 (by decide) bs hlen
  · have he : fmt5 = fo :=
      Except.ok.inj ((rfl : buildFormat "5" false = Except.ok fmt5).symm.trans hF)
    subst he
    exact truncated_general fmt5 (by decide) bs hlen

/-- C8 witness: the empty block under point format 0 fails to unpack. -/
theorem unpack_truncated_point_record_fails_witness :
    Point.make fmt0 (some []) none = Except.error "struct.error" :=
  unpack_truncated_point_record_fails "0" (by decide) fmt0 rfl [] (by decide)

/-- C8 counterexample: under the VLR schema (record length 54) the packer
covers only 8 bytes, so an 8-byte block -- strictly shorter than the
record length -- unpacks successfully into a value sequence. -/
theorem vlr_short_block_unpacks :
    ((List.replicate 8 (0 : Nat)).length : Int) < vlrFormat.rec_len ∧
    Point.make vlrFormat (some (List.replicate 8 0)) none = Except.ok vlrZeroReadBack :=
  ⟨by decide, rfl⟩

/-- C9 (amended): field-spec construction performs no arity validation at
all: every element count, zero and negative included, is accepted, and the
only construction-time failure is a request for big-endian storage. -/
theorem spec_constructor_skips_arity_check (name : String) (offs : Int) (c : CType)
    (num : Int) (p ow : Bool) (idx : Nat) :
    isOkB (mkSpec name offs c num p true ow idx) = true ∧
    mkSpec name offs c num p false ow idx =
      Except.error "Big endian files are not currently supported." :=
  ⟨rfl, rfl⟩

/-- C9 witness: constructor outcomes at a concrete field description. -/
theorem spec_constructor_skips_arity_check_witness :
    isOkB (mkSpec "X" 0 CType.c_long 1 false true true 0) = true ∧
    mkSpec "X" 0 CType.c_long 1 false false true 0 =
      Except.error "Big endian files are not currently supported." :=
  spec_constructor_skips_arity_check "X" 0 CType.c_long 1 false true 0

/-- C9 counterexample: construction succeeds at count 0 and at count -3,
so a non-positive count is not a construction error. -/
theorem spec_accepts_nonpositive_count :
    isOkB (mkSpec "X" 0 CType.c_long 0 false true true 0) = true ∧
    isOkB (mkSpec "X" 0 CType.c_long (-3) false true true 0) = true :=
  ⟨rfl, rfl⟩

/-- C10 (amended): for every point-format schema (ids 0 to 5) and every
byte block of exactly the record length, unpacking the block and
re-packing the resulting value sequence reproduces the block
byte-for-byte.  Stated over every constructed schema it fails, because for
the VLR and header schemas the packer rejects a block of the record
length: see the VLR counterexample. -/
theorem point_byte_roundtrip (fid : String) (hf : fid ∈ pointIds)
    (fo : Format) (hF : buildFormat fid false = Except.ok fo)
    (bs : List Nat) (hlen : (bs.length : Int) = fo.rec_len) (hb : ∀ b ∈ bs, b < 256) :
    ∃ p : Point, Point.make fo (some bs) none = Except.ok p ∧ Point.pack fo p = some bs := by
  have hc : fid = "0" ∨ fid = "1" ∨ fid = "2" ∨ fid = "3" ∨ fid = "4" ∨ fid = "5" := by
    simpa [pointIds] using hf
  rcases hc with rfl | rfl | rfl | rfl | rfl | rfl
  · have he : fmt0 = fo :=
      Except.ok.inj ((rfl : buildFormat "0" false = Except.ok fmt0).symm.trans hF)
    subst he
    exact decode_encode_general fmt0 (by decide) bs hlen hb
  · have he : fmt1 = fo :=
      Except.ok.inj ((rfl : buildFormat "1" false = Except.ok fmt1).symm.trans hF)
    subst he
    exact decode_encode_general fmt1 (by decide) bs hlen hb
  · have he : fmt2 = fo :=
      Except.ok.inj ((rfl : buildFormat "2" false = Except.ok fmt2).symm.trans hF)
    subst he
    exact decode_encode_general fmt2 (by decide) bs hlen hb
  · have he : fmt3 = fo :=
      Except.ok.inj ((rfl : buildFormat "3" false = Except.ok fmt3).symm.trans hF)
    subst he
    exact decode_encode_general fmt3 (by decide) bs hlen hb
  · have he : fmt4 = fo :=
      Except.ok.inj ((rfl : buildFormat "4" false = Except.ok fmt4).symm.trans hF)
    subst he
    exact decode_encode_general fmt4 (by decide) bs hlen hb
  · have he : fmt5 = fo :=
      Except.ok.inj ((rfl : buildFormat "5" false = Except.ok fmt5).symm.trans hF)
    subst he
    exact decode_encode_general fmt5 (by decide) bs hlen hb

/-- C10 witness: point format 0 on the all-zero twenty-byte block. -/
theorem point_byte_roundtrip_witness :
    ∃ p : Point, Point.make fmt0 (some (List.replicate 20 0)) none = Except.ok p ∧
      Point.pack fmt0 p = some (List.replicate 20 0) :=
  point_byte_roundtrip "0" (by decide) fmt0 rfl (List.replicate 20 0) (by decide) (by decide)

/-- C10 counterexample: under the VLR schema a 54-byte block -- exactly
the record length -- cannot be unpacked at all, because the packer's
calcsize is 8; no decoded value sequence exists, let alone one that
re-packs to the block. -/
theorem vlr_exact_length_block_fails :
    ((List.replicate 54 (0 : Nat)).length : Int) = vlrFormat.rec_len ∧
    Point.make vlrFormat (some (List.replicate 54 (0 : Nat))) none =
      Except.error "struct.error" :=
  ⟨by decide, rfl⟩

end Laspy
